import Mathlib

/-!
Verification of the tagops package (mapper.go, structtools.go): a shallow
embedding of the tag-resolution and structure-flattening core, with theorems
checking the natural-language specification against it.

Go runtime values are embedded as an inductive grammar whose head constructor
records the static kind that reflect reports; machine floats and complex
parts are carried as IEEE-754 bit patterns because the only operation the
package performs on them is comparison with zero; panics are modelled as the
error branch of Except.  Membership in the Unicode Lu character class is
threaded as an explicit predicate parameter, so every theorem holds for the
real table as one instance.
-/

namespace Tagops

/-- Constant tagsep of structtools.go: the tag separator. -/
def tagsep : Char := ','

/-- Constant fOmitEmpty of structtools.go: the omitempty tag value. -/
def fOmitEmpty : String := "omitempty"

mutual

/-- Go values as the tagops walker observes them through reflection.  Each
constructor is one reflect kind the code distinguishes; vTime stands for the
external time.Time type, of which only the IsZero observation is consumed;
vMapSA is a map from string to any, the shape of nested sub-mappings stored
unflattened; vNull is the nil any value a map read returns for an absent
key. -/
inductive GoValue where
  | vInt (n : Int)
  | vUint (n : Nat)
  | vFloat (bits : Nat)
  | vComplex (re im : Nat)
  | vBool (b : Bool)
  | vString (s : String)
  | vArray (elems : List GoValue)
  | vSlice (elems : List GoValue)
  | vMap (entries : List (GoValue × GoValue))
  | vPtr (p : Option GoValue)
  | vIface (p : Option GoValue)
  | vTime (isZero : Bool)
  | vStruct (fields : List GoField)
  | vMapSA (entries : List (String × GoValue))
  | vNull

/-- One declared struct field: its name, its struct-tag table (reflect
StructTag.Get source), its anonymous flag and its current value. -/
inductive GoField where
  | mk (name : String) (tags : List (String × String)) (anonymous : Bool)
      (value : GoValue)

end

/-- Declared name of the field. -/
def GoField.name : GoField → String
  | .mk n _ _ _ => n

/-- Struct-tag table of the field. -/
def GoField.tags : GoField → List (String × String)
  | .mk _ t _ _ => t

/-- Anonymous (embedded) flag of the field. -/
def GoField.anonymous : GoField → Bool
  | .mk _ _ a _ => a

/-- Current value of the field. -/
def GoField.value : GoField → GoValue
  | .mk _ _ _ v => v

/-- Model of reflect StructTag.Get: the value stored under the key, or the
empty string when the key is absent. -/
def tagGet (tags : List (String × String)) (key : String) : String :=
  match tags.lookup key with
  | some v => v
  | none => ""

/-- Splits a character list at the first tag separator, when one occurs. -/
def breakSep : List Char → Option (List Char × List Char)
  | [] => none
  | c :: rest =>
    if c = tagsep then some ([], rest)
    else
      match breakSep rest with
      | none => none
      | some (a, b) => some (c :: a, b)

/-- Model of strings.SplitN(s, tagsep, 2): a one-element list holding s when
no separator occurs (also for the empty string), otherwise the part before
the first separator followed by the entire remainder after it. -/
def splitN2 (s : String) : List String :=
  match breakSep s.data with
  | none => [s]
  | some (a, b) => [String.mk a, String.mk b]

/-- ASCII case folding of one character.  Go strings.EqualFold additionally
folds beyond ASCII through unicode.SimpleFold; the single call site of the
package compares a token with the caseless string "-", where the two
foldings coincide. -/
def foldChar (c : Char) : Char :=
  if 'A' ≤ c && c ≤ 'Z' then Char.ofNat (c.toNat + 32) else c

/-- Model of strings.EqualFold restricted to ASCII folding. -/
def equalFold (a b : String) : Bool :=
  a.data.map foldChar == b.data.map foldChar

/-- ASCII fragment of the Unicode Lu class, used to instantiate the threaded
Lu predicate on concrete records whose field names are ASCII; it agrees with
unicode.Lu on that range. -/
def asciiLu (r : Nat) : Bool :=
  decide (65 ≤ r) && decide (r ≤ 90)

/-- Model of isExported (mapper.go).  On the always-valid UTF-8 text of a
Lean string, utf8.DecodeRuneInString yields the first character, or RuneError
when the string is empty; the function panics (the error branch here) when
that rune equals utf8.RuneError, and otherwise tests membership of the first
rune in the Unicode Lu class, abstracted as the predicate lu. -/
def isExported (lu : Nat → Bool) (fieldName : String) : Except String Bool :=
  match fieldName.data with
  | [] => .error "isExported: unsupported field"
  | c :: _ =>
    if c.toNat = 0xFFFD then .error "isExported: unsupported field"
    else .ok (lu c.toNat)

/-- Model of the implicit visibility check of reflect.Value.Interface, which
panics on a field with a nonempty PkgPath, that is, on a field whose declared
name does not start with an uppercase-class character.  Field names reflect
reports are valid nonempty identifiers, so only the class test matters. -/
def canInterface (lu : Nat → Bool) (fieldName : String) : Bool :=
  match fieldName.data with
  | [] => false
  | c :: _ => lu c.toNat

/-- Model of isEmpty (mapper.go).  Bit patterns equal to plus or minus zero
are the floats comparing equal to zero (NaN does not); a complex value equals
zero when both components do; the struct case returns false except for
time.Time, whose IsZero observation is carried in the vTime payload: the
source comment suggests a fallthrough to the nil check, but no fallthrough
statement exists, so a non-time struct leaves the switch and returns
false. -/
def isEmpty : GoValue → Bool
  | .vInt n => n == 0
  | .vUint n => n == 0
  | .vFloat bits => bits == 0 || bits == 0x8000000000000000
  | .vComplex re im =>
    (re == 0 || re == 0x8000000000000000) &&
      (im == 0 || im == 0x8000000000000000)
  | .vArray elems => elems.length == 0
  | .vMap entries => entries.length == 0
  | .vSlice elems => elems.length == 0
  | .vString s => s.isEmpty
  | .vBool b => !b
  | .vTime z => z
  | .vStruct _ => false
  | .vIface p => p.isNone
  | .vPtr p => p.isNone
  | .vMapSA entries => entries.length == 0
  | .vNull => false

/-- Model of tagName (mapper.go).  The result .ok none stands for the errSkip
signal, .error for a panic escaping from isExported.  The branch for an empty
split result mirrors the unreachable len check of the source. -/
def tagName (lu : Nat → Bool) (fld : GoField) (tag : String)
    (omitempty : Bool) : Except String (Option String) :=
  match isExported lu fld.name with
  | .error e => .error e
  | .ok false => .ok none
  | .ok true =>
    match splitN2 (tagGet fld.tags tag) with
    | [] => .ok (some fld.name)
    | t0 :: rest =>
      if equalFold t0 "-" then .ok none
      else
        let key := if t0 = "" then fld.name else t0
        if omitempty then
          match rest with
          | t1 :: _ =>
            if t1 = fOmitEmpty && isEmpty fld.value then .ok none
            else .ok (some key)
          | [] => .ok (some key)
        else .ok (some key)

/-- Test of the static-kind condition on line 74 of mapper.go: the field type
has kind Struct and is not time.Time.  In the value grammar the static kind
is the head constructor, and vTime is the time.Time case. -/
def isStructNonTime : GoValue → Bool
  | .vStruct _ => true
  | _ => false

/-- Model of a map write out[key] = val: the binding is replaced when the key
is present and appended otherwise, so lookups see last-write-wins. -/
def mapInsert (m : List (String × GoValue)) (k : String) (v : GoValue) :
    List (String × GoValue) :=
  if m.any (fun p => p.1 == k) then
    m.map (fun p => if p.1 == k then (k, v) else p)
  else m ++ [(k, v)]

/-- Lookup in the produced mapping. -/
def mapLookup (m : List (String × GoValue)) (k : String) : Option GoValue :=
  m.lookup k

/-- Model of a Go map read m[col]: the stored value, or nil any for an absent
key. -/
def mapGet (m : List (String × GoValue)) (k : String) : GoValue :=
  (mapLookup m k).getD .vNull

/-- Model of the flattening merge on lines 78-80 of mapper.go: every binding
of the nested mapping is written into the output mapping.  The nested map has
pairwise distinct keys, so the unspecified Go map iteration order cannot
change the result. -/
def mergeInto (out nested : List (String × GoValue)) :
    List (String × GoValue) :=
  nested.foldl (fun o kv => mapInsert o kv.1 kv.2) out

/-- Configuration of a conversion run (mapper.go). -/
structure Mapper where
  Tag : String
  Omitempty : Bool
  Flatten : Bool

mutual

/-- Model of Mapper.ToMap (mapper.go, lines 62-98).  One level of pointer is
dereferenced; reflect then panics (the error branch) when the remaining value
is not a struct, including the zero value obtained from a nil pointer. -/
def Mapper.ToMap (lu : Nat → Bool) (m : Mapper) (a : GoValue) :
    Except String (List (String × GoValue)) :=
  match a with
  | .vPtr (some (.vStruct fields)) => Mapper.walk lu m fields []
  | .vPtr _ => .error "reflect: NumField of non-struct type"
  | .vStruct fields => Mapper.walk lu m fields []
  | _ => .error "reflect: NumField of non-struct type"

/-- Field loop of Mapper.ToMap (lines 71-96), with the mapping built so far
as accumulator; each iteration is walkStep, and continue corresponds to the
ok branch. -/
def Mapper.walk (lu : Nat → Bool) (m : Mapper) (fields : List GoField)
    (out : List (String × GoValue)) :
    Except String (List (String × GoValue)) :=
  match fields with
  | [] => .ok out
  | fld :: rest =>
    match Mapper.walkStep lu m fld out with
    | .error e => .error e
    | .ok out2 => Mapper.walk lu m rest out2

/-- Body of one iteration of the field loop (lines 74-95).  A struct-kind
non-time field is first read through Interface, which panics on an unexported
field; its recursive conversion is merged when the field is anonymous or the
Flatten option is set, and otherwise stored whole under its resolved key.
Every other field is stored raw under its resolved key.  The errSkip signal
leaves the accumulator unchanged. -/
def Mapper.walkStep (lu : Nat → Bool) (m : Mapper) (fld : GoField)
    (out : List (String × GoValue)) :
    Except String (List (String × GoValue)) :=
  match fld with
  | .mk name tags anon val =>
    if isStructNonTime val then
      if canInterface lu name then
        match Mapper.ToMap lu m val with
        | .error e => .error e
        | .ok nested =>
          if anon || m.Flatten then .ok (mergeInto out nested)
          else
            match tagName lu (.mk name tags anon val) m.Tag m.Omitempty with
            | .error e => .error e
            | .ok none => .ok out
            | .ok (some key) => .ok (mapInsert out key (.vMapSA nested))
      else
        .error "reflect.Value.Interface: cannot return value obtained from unexported field or method"
    else
      match tagName lu (.mk name tags anon val) m.Tag m.Omitempty with
      | .error e => .error e
      | .ok none => .ok out
      | .ok (some key) => .ok (mapInsert out key val)

end

/-- Model of the free ToMap (structtools.go): builds a Mapper from explicit
parameters and converts. -/
def ToMap (lu : Nat → Bool) (a : GoValue) (tag : String)
    (omitempty flatten : Bool) : Except String (List (String × GoValue)) :=
  Mapper.ToMap lu { Tag := tag, Omitempty := omitempty, Flatten := flatten } a

/-- Insertion of a string into a sorted list, ascending. -/
def insertSorted (s : String) : List String → List String
  | [] => [s]
  | t :: rest => if s ≤ t then s :: t :: rest else t :: insertSorted s rest

/-- Model of Keys (mapper.go): the keys of the mapping in ascending
lexicographic order (sort.Strings); Lean string order coincides with byte
order of the UTF-8 encoding. -/
def Keys (m : List (String × GoValue)) : List String :=
  (m.map Prod.fst).foldr insertSorted []

/-- Model of Mapper.Tags (mapper.go): the sorted keys of the conversion run
under the configured Tag, Omitempty and Flatten options. -/
def Mapper.Tags (lu : Nat → Bool) (m : Mapper) (a : GoValue) :
    Except String (List String) :=
  match Tagops.ToMap lu a m.Tag m.Omitempty m.Flatten with
  | .error e => .error e
  | .ok mp => .ok (Keys mp)

/-- Model of resize (mapper.go): truncates the buffer when it is at least the
requested size and extends it with nil any elements otherwise.  The nil
pointer guard of the source is unreachable here because the buffer is passed
by value. -/
def resize (s : List GoValue) (sz : Nat) : List GoValue :=
  if sz ≤ s.length then s.take sz
  else s ++ List.replicate (sz - s.length) .vNull

/-- Write loop of MapValues: successive positions receive the map reads of
the ordered keys. -/
def setLoop (m : List (String × GoValue)) :
    List GoValue → Nat → List String → List GoValue
  | out, _, [] => out
  | out, i, k :: ks => setLoop m (out.set i (mapGet m k)) (i + 1) ks

/-- Model of MapValues (mapper.go): the buffer is resized to the length of
the key order when they differ, then position i receives the map read of key
i.  The deferred recover of the source converts panics into errors, but no
panic is reachable once the buffer is a value: after resizing, every write
is in bounds. -/
def MapValues (out : List GoValue) (m : List (String × GoValue))
    (order : List String) : Except String (List GoValue) :=
  let out1 := if out.length ≠ order.length then resize out order.length else out
  .ok (setLoop m out1 0 order)

/-- Model of Mapper.Values (mapper.go): the mapping computed with Omitempty
off and Flatten on, projected over the key order Mapper.Tags yields under the
configured options. -/
def Mapper.Values (lu : Nat → Bool) (m : Mapper) (a : GoValue) :
    Except String (List GoValue) :=
  match Tagops.ToMap lu a m.Tag false true with
  | .error e => .error e
  | .ok mp =>
    match Mapper.Tags lu m a with
    | .error e => .error e
    | .ok tags => MapValues [] mp tags

/-- Model of the free Tags (structtools.go): a Mapper with Omitempty off and
Flatten on. -/
def Tags (lu : Nat → Bool) (a : GoValue) (tag : String) :
    Except String (List String) :=
  Mapper.Tags lu { Tag := tag, Omitempty := false, Flatten := true } a

/-- Model of the free Values (structtools.go): a Mapper with Omitempty off
and Flatten on. -/
def Values (lu : Nat → Bool) (a : GoValue) (tag : String) :
    Except String (List GoValue) :=
  Mapper.Values lu { Tag := tag, Omitempty := false, Flatten := true } a

/-- Model of utf8.DecodeRuneInString on the raw bytes of a field name: the
first rune and the number of bytes consumed.  RuneError (U+FFFD) is returned
with size 0 for empty input and with size 1 for an invalid encoding: a
continuation or overlong lead byte, a lead byte above 0xF4, a missing or
out-of-range continuation byte, an overlong longer form, a surrogate, or a
rune above the Unicode maximum, all of which the per-lead-byte acceptance
ranges reject. -/
def decodeRuneInString (s : List Nat) : Nat × Nat :=
  match s with
  | [] => (0xFFFD, 0)
  | b0 :: rest =>
    if b0 < 0x80 then (b0, 1)
    else if b0 < 0xC2 then (0xFFFD, 1)
    else if b0 < 0xE0 then
      match rest with
      | b1 :: _ =>
        if 0x80 ≤ b1 ∧ b1 < 0xC0 then ((b0 - 0xC0) * 64 + (b1 - 0x80), 2)
        else (0xFFFD, 1)
      | [] => (0xFFFD, 1)
    else if b0 < 0xF0 then
      match rest with
      | b1 :: b2 :: _ =>
        if (if b0 = 0xE0 then 0xA0 else 0x80) ≤ b1 ∧
            b1 < (if b0 = 0xED then 0xA0 else 0xC0) ∧
            0x80 ≤ b2 ∧ b2 < 0xC0 then
          ((b0 - 0xE0) * 4096 + (b1 - 0x80) * 64 + (b2 - 0x80), 3)
        else (0xFFFD, 1)
      | _ => (0xFFFD, 1)
    else if b0 < 0xF5 then
      match rest with
      | b1 :: b2 :: b3 :: _ =>
        if (if b0 = 0xF0 then 0x90 else 0x80) ≤ b1 ∧
            b1 < (if b0 = 0xF4 then 0x90 else 0xC0) ∧
            0x80 ≤ b2 ∧ b2 < 0xC0 ∧ 0x80 ≤ b3 ∧ b3 < 0xC0 then
          ((b0 - 0xF0) * 262144 + (b1 - 0x80) * 4096 + (b2 - 0x80) * 64 +
              (b3 - 0x80), 4)
        else (0xFFFD, 1)
      | _ => (0xFFFD, 1)
    else (0xFFFD, 1)

/-- Byte-level model of isExported (mapper.go), for field names given as raw
UTF-8 bytes: the function panics (error) when the decoded first rune equals
utf8.RuneError, and otherwise tests the decoded rune against the Lu class. -/
def isExportedBytes (lu : Nat → Bool) (fieldName : List Nat) :
    Except String Bool :=
  let r := decodeRuneInString fieldName
  if r.1 = 0xFFFD then .error "isExported: unsupported field"
  else .ok (lu r.1)

/-- Decodability of the first character of a name, following the claim
wording: the decoder signals failure by returning RuneError with size 0
(empty name) or size 1 (malformed encoding); every other result is a
successful decode. -/
def firstRuneDecodable (s : List Nat) : Bool :=
  let r := decodeRuneInString s
  !(r.1 == 0xFFFD && (r.2 == 0 || r.2 == 1))

/-- Record with one empty field whose annotation requests omit-on-empty,
mirroring a Go struct with field A int with tag a,omitempty holding 0. -/
def omitRecord : GoValue :=
  .vStruct [.mk "A" [("json", "a,omitempty")] false (.vInt 0)]

/-- Record with one named nested record field, mirroring a Go struct with
field S (tag s) of a struct type with field X (tag x) holding 7. -/
def nestedRecord : GoValue :=
  .vStruct [.mk "S" [("json", "s")] false
    (.vStruct [.mk "X" [("json", "x")] false (.vInt 7)])]

/-- Field list of a nested record that itself contains a named record field:
X (tag x) holding 7 and T (tag t) holding a record with Y (tag y) = 9. -/
def deepSub : List GoField :=
  [.mk "X" [("json", "x")] false (.vInt 7),
   .mk "T" [("json", "t")] false
     (.vStruct [.mk "Y" [("json", "y")] false (.vInt 9)])]

/-- Record with a named record-typed field annotated with the dash, holding a
record with field X (tag x) = 1. -/
def dashMergeRecord : GoValue :=
  .vStruct [.mk "S" [("json", "-")] false
    (.vStruct [.mk "X" [("json", "x")] false (.vInt 1)])]

/-- Field whose annotation carries a third comma-separated token after the
omitempty marker, with an empty string value. -/
def extraTokenField : GoField :=
  .mk "Extra" [("json", "name,omitempty,extra")] false (.vString "")

/-! Helper lemmas about the walker and the projection loop. -/

/-- Processing a concatenation of field lists processes the first list and,
unless it faulted, continues with the second from the accumulated mapping. -/
theorem walk_append (lu : Nat → Bool) (m : Mapper) (l1 l2 : List GoField)
    (out : List (String × GoValue)) :
    Mapper.walk lu m (l1 ++ l2) out =
      match Mapper.walk lu m l1 out with
      | .error e => .error e
      | .ok o => Mapper.walk lu m l2 o := by
  induction l1 generalizing out with
  | nil => simp [Mapper.walk]
  | cons f l1 ih =>
    simp only [List.cons_append, Mapper.walk]
    cases Mapper.walkStep lu m f out with
    | error e => rfl
    | ok o => exact ih o

/-- One walk step over a field that is not a non-time record ignores the
Flatten option: only the merge decision for record fields reads it. -/
theorem walkStep_flatten_irrel (lu : Nat → Bool) (t : String) (oe b1 b2 : Bool)
    (fld : GoField) (out : List (String × GoValue))
    (h : isStructNonTime fld.value = false) :
    Mapper.walkStep lu { Tag := t, Omitempty := oe, Flatten := b1 } fld out =
      Mapper.walkStep lu { Tag := t, Omitempty := oe, Flatten := b2 } fld out := by
  cases fld with
  | mk name tags anon val =>
    simp only [GoField.value] at h
    simp [Mapper.walkStep, h]

/-- Walking a field list with no non-time record fields ignores the Flatten
option. -/
theorem walk_flatten_irrel (lu : Nat → Bool) (t : String) (oe b1 b2 : Bool)
    (fields : List GoField) (out : List (String × GoValue))
    (h : ∀ f ∈ fields, isStructNonTime f.value = false) :
    Mapper.walk lu { Tag := t, Omitempty := oe, Flatten := b1 } fields out =
      Mapper.walk lu { Tag := t, Omitempty := oe, Flatten := b2 } fields out := by
  induction fields generalizing out with
  | nil => simp [Mapper.walk]
  | cons f rest ih =>
    simp only [Mapper.walk]
    rw [walkStep_flatten_irrel lu t oe b1 b2 f out (h f (by simp))]
    cases Mapper.walkStep lu { Tag := t, Omitempty := oe, Flatten := b2 } f out with
    | error e => rfl
    | ok o => exact ih o (fun g hg => h g (by simp [hg]))

/-- Converting a record with no non-time record fields ignores the Flatten
option. -/
theorem toMap_struct_flatten_irrel (lu : Nat → Bool) (t : String)
    (oe b1 b2 : Bool) (sub : List GoField)
    (h : ∀ f ∈ sub, isStructNonTime f.value = false) :
    Mapper.ToMap lu { Tag := t, Omitempty := oe, Flatten := b1 } (.vStruct sub) =
      Mapper.ToMap lu { Tag := t, Omitempty := oe, Flatten := b2 } (.vStruct sub) := by
  simp only [Mapper.ToMap]
  exact walk_flatten_irrel lu t oe b1 b2 sub [] h

/-- A name that passes the exportedness check can be read through
Interface. -/
theorem canInterface_of_isExported (lu : Nat → Bool) (n : String)
    (h : isExported lu n = .ok true) : canInterface lu n = true := by
  unfold isExported at h
  unfold canInterface
  cases hd : n.data with
  | nil => simp [hd] at h
  | cons c cs =>
    simp only [hd] at h ⊢
    by_cases hc : c.toNat = 0xFFFD
    · simp [hc] at h
    · simp [hc] at h
      exact h

/-- Resizing yields exactly the requested length. -/
theorem resize_length (s : List GoValue) (sz : Nat) :
    (resize s sz).length = sz := by
  unfold resize
  split
  · simp; omega
  · simp; omega

/-- Taking one element past an in-bounds set position splits off the written
element. -/
theorem take_set_succ (l : List GoValue) (i : Nat) (v : GoValue)
    (h : i < l.length) :
    (l.set i v).take (i + 1) = l.take i ++ [v] := by
  induction l generalizing i with
  | nil => simp at h
  | cons a l ih =>
    cases i with
    | zero => simp
    | succ j =>
      simp only [List.set, List.take, List.cons_append]
      rw [ih j (by simpa using h)]

/-- The write loop fills positions i onward with the map reads of the keys
when the buffer length matches. -/
theorem setLoop_spec (m : List (String × GoValue)) (ks : List String)
    (out : List GoValue) (i : Nat) (h : out.length = i + ks.length) :
    setLoop m out i ks = out.take i ++ ks.map (mapGet m) := by
  induction ks generalizing out i with
  | nil =>
    simp only [List.length_nil] at h
    simp only [setLoop, List.map_nil, List.append_nil]
    rw [List.take_of_length_le (by omega)]
  | cons k ks ih =>
    simp only [List.length_cons] at h
    simp only [setLoop, List.map_cons]
    rw [ih (out.set i (mapGet m k)) (i + 1) (by simp [List.length_set]; omega)]
    rw [take_set_succ out i (mapGet m k) (by omega)]
    simp

/-- A dash-annotated field leaves the accumulator unchanged in one walk step
whenever the step consults the tag resolver: when the field is not a non-time
record, or a named non-time record under Flatten off whose own conversion
raises no fault. -/
theorem walkStep_dash_skip (lu : Nat → Bool) (m : Mapper) (name : String)
    (tgs : List (String × String)) (anon : Bool) (val : GoValue)
    (t0 : String) (ts : List String)
    (hsplit : splitN2 (tagGet tgs m.Tag) = t0 :: ts)
    (hdash : equalFold t0 "-" = true)
    (hexp : isExported lu name = .ok true)
    (hcase : isStructNonTime val = false ∨
      (anon = false ∧ m.Flatten = false ∧
        ∃ nested, Mapper.ToMap lu m val = .ok nested))
    (out : List (String × GoValue)) :
    Mapper.walkStep lu m (.mk name tgs anon val) out = .ok out := by
  have htag : tagName lu (.mk name tgs anon val) m.Tag m.Omitempty = .ok none := by
    simp [tagName, hexp, GoField.name, GoField.tags, hsplit, hdash]
  rcases hcase with h | ⟨ha, hf, nested, hn⟩
  · simp [Mapper.walkStep, h, htag]
  · subst ha
    cases hs : isStructNonTime val with
    | false => simp [Mapper.walkStep, hs, htag]
    | true =>
      have hci := canInterface_of_isExported lu name hexp
      simp [Mapper.walkStep, hs, hci, hn, hf, htag]

/-- The decoded first rune is the replacement character exactly when the
first character cannot be decoded or the name genuinely begins with the
UTF-8 encoding of the replacement character itself. -/
theorem decode_fffd_iff (s : List Nat) :
    ((decodeRuneInString s).1 = 0xFFFD) ↔
      (firstRuneDecodable s = false ∨ s.take 3 = [0xEF, 0xBF, 0xBD]) := by
  rcases s with _ | ⟨b0, _ | ⟨b1, _ | ⟨b2, _ | ⟨b3, rest⟩⟩⟩⟩ <;>
    simp only [decodeRuneInString, firstRuneDecodable, List.take, List.cons.injEq,
      List.nil_eq, Bool.not_eq_false, Bool.and_eq_true, Bool.or_eq_true, beq_iff_eq,
      Bool.not_eq_true, Bool.and_eq_false_iff, Bool.or_eq_false_iff, ne_eq] <;>
    (try split_ifs) <;> (try simp_all) <;> (try omega)

/-! Claim theorems. -/

/-- C1: the claim states that Mapper.Tags always equals the sorted keys of
the conversion with empty-omission disabled and flattening enabled,
independent of the configured options.  The code instead passes its own
Omitempty and Flatten options, contradicting its documentation comment: at a
Mapper with Omitempty on, the record with one empty omittable field a yields
an empty tag list, while the claimed computation yields the tag a. -/
theorem tags_config_bug :
    Mapper.Tags asciiLu { Tag := "json", Omitempty := true, Flatten := false }
        omitRecord = .ok [] ∧
    (ToMap asciiLu omitRecord "json" false true).map Keys = .ok ["a"] :=
  ⟨rfl, rfl⟩

/-- C2: the claim states that Mapper.Values projects the flattened
non-omitting mapping over that same mapping's own sorted keys.  The code
projects it over Mapper.Tags computed under the configured options instead:
at the default-shaped Mapper with Flatten off, a record with a named nested
record yields the single null value (the key s is absent from the flattened
map), while the claimed projection yields the nested field value 7. -/
theorem values_order_bug :
    Mapper.Values asciiLu { Tag := "json", Omitempty := false, Flatten := false }
        nestedRecord = .ok [.vNull] ∧
    (ToMap asciiLu nestedRecord "json" false true).map
        (fun mp => (Keys mp).map (mapGet mp)) = .ok [.vInt 7] :=
  ⟨rfl, rfl⟩

/-- C3 counterexample: the flattening law fails as soon as the anonymous
nested record itself contains a further named record field, because the
recursion keeps the flatten flag of the caller: with flatten off the inner
named record T stays nested under the key t, while the named variant under
flatten on merges the inner key y instead, so the two mappings have
different keys. -/
theorem flatten_law_deep_cex :
    Mapper.ToMap asciiLu { Tag := "json", Omitempty := false, Flatten := false }
        (.vStruct [.mk "S" [("json", "s")] true (.vStruct deepSub)]) =
      .ok [("x", .vInt 7), ("t", .vMapSA [("y", .vInt 9)])] ∧
    Mapper.ToMap asciiLu { Tag := "json", Omitempty := false, Flatten := true }
        (.vStruct [.mk "S" [("json", "s")] false (.vStruct deepSub)]) =
      .ok [("x", .vInt 7), ("y", .vInt 9)] ∧
    List.map Prod.fst [("x", GoValue.vInt 7), ("t", .vMapSA [("y", .vInt 9)])] ≠
      List.map Prod.fst [("x", GoValue.vInt 7), ("y", GoValue.vInt 9)] :=
  ⟨rfl, rfl, by decide⟩

/-- C3 amended: for a record whose other fields are not non-time record
fields and whose anonymous nested record contains no non-time record fields
itself, converting with flatten off equals converting the structurally
identical record with the nested field named under flatten on; at this flat
depth the anonymous merge indeed ignores the flatten flag. -/
theorem flatten_law_flat (lu : Nat → Bool) (t : String) (oe : Bool)
    (name : String) (tgs : List (String × String)) (sub pre post : List GoField)
    (hpre : ∀ f ∈ pre, isStructNonTime f.value = false)
    (hpost : ∀ f ∈ post, isStructNonTime f.value = false)
    (hsub : ∀ f ∈ sub, isStructNonTime f.value = false) :
    Mapper.ToMap lu { Tag := t, Omitempty := oe, Flatten := false }
        (.vStruct (pre ++ .mk name tgs true (.vStruct sub) :: post)) =
      Mapper.ToMap lu { Tag := t, Omitempty := oe, Flatten := true }
        (.vStruct (pre ++ .mk name tgs false (.vStruct sub) :: post)) := by
  simp only [Mapper.ToMap]
  rw [walk_append, walk_append]
  rw [walk_flatten_irrel lu t oe false true pre [] hpre]
  cases h : Mapper.walk lu { Tag := t, Omitempty := oe, Flatten := true } pre [] with
  | error e => rfl
  | ok o =>
    simp only [Mapper.walk, Mapper.walkStep, isStructNonTime]
    cases hci : canInterface lu name with
    | false => simp [hci]
    | true =>
      simp only [hci, if_true]
      rw [toMap_struct_flatten_irrel lu t oe false true sub hsub]
      cases hn : Mapper.ToMap lu { Tag := t, Omitempty := oe, Flatten := true } (.vStruct sub) with
      | error e => rfl
      | ok nested =>
        simp only [Bool.or_false, Bool.or_true, if_true]
        exact walk_flatten_irrel lu t oe false true post (mergeInto o nested) hpost

/-- C3 witness: the amended law applied to a concrete record with one flat
anonymous nested record and one plain sibling field. -/
theorem flatten_law_flat_wit :
    (∀ f ∈ ([] : List GoField), isStructNonTime f.value = false) ∧
    (∀ f ∈ [GoField.mk "Position" [("json", "position")] false (.vString "Mgr")],
      isStructNonTime f.value = false) ∧
    (∀ f ∈ [GoField.mk "X" [("json", "x")] false (GoValue.vInt 1)],
      isStructNonTime f.value = false) ∧
    Mapper.ToMap asciiLu { Tag := "json", Omitempty := false, Flatten := false }
        (.vStruct ([] ++ .mk "P" [] true
            (.vStruct [GoField.mk "X" [("json", "x")] false (GoValue.vInt 1)]) ::
          [GoField.mk "Position" [("json", "position")] false (.vString "Mgr")])) =
      Mapper.ToMap asciiLu { Tag := "json", Omitempty := false, Flatten := true }
        (.vStruct ([] ++ .mk "P" [] false
            (.vStruct [GoField.mk "X" [("json", "x")] false (GoValue.vInt 1)]) ::
          [GoField.mk "Position" [("json", "position")] false (.vString "Mgr")])) :=
  ⟨by decide, by decide, by decide,
   flatten_law_flat asciiLu "json" false "P" []
     [GoField.mk "X" [("json", "x")] false (GoValue.vInt 1)] []
     [GoField.mk "Position" [("json", "position")] false (.vString "Mgr")]
     (by decide) (by decide) (by decide)⟩

/-- C4 counterexample: a named record-typed field annotated with the dash is
not skipped when Flatten is on, because the merge path never consults the tag
resolver: its nested key x reaches the result mapping, while the claim says
the field contributes nothing. -/
theorem dash_merge_cex :
    Mapper.ToMap asciiLu { Tag := "json", Omitempty := false, Flatten := true }
        dashMergeRecord = .ok [("x", .vInt 1)] ∧
    Mapper.ToMap asciiLu { Tag := "json", Omitempty := false, Flatten := true }
        (.vStruct []) = .ok [] ∧
    List.map Prod.fst [("x", GoValue.vInt 1)] ≠
      List.map Prod.fst ([] : List (String × GoValue)) :=
  ⟨rfl, rfl, by decide⟩

/-- C4 amended: a field whose annotation has the case-insensitive dash as
first token contributes nothing to the result mapping whenever the walker
consults the tag resolver for it: for every field that is not a non-time
record, and for every named non-time record field under Flatten off whose
own conversion raises no fault; anonymous record fields and named record
fields under Flatten on are merged without consulting the annotation. -/
theorem dash_skip_resolved (lu : Nat → Bool) (m : Mapper) (name : String)
    (tgs : List (String × String)) (anon : Bool) (val : GoValue)
    (pre post : List GoField) (t0 : String) (ts : List String)
    (hsplit : splitN2 (tagGet tgs m.Tag) = t0 :: ts)
    (hdash : equalFold t0 "-" = true)
    (hexp : isExported lu name = .ok true)
    (hcase : isStructNonTime val = false ∨
      (anon = false ∧ m.Flatten = false ∧
        ∃ nested, Mapper.ToMap lu m val = .ok nested)) :
    Mapper.ToMap lu m (.vStruct (pre ++ .mk name tgs anon val :: post)) =
      Mapper.ToMap lu m (.vStruct (pre ++ post)) := by
  simp only [Mapper.ToMap]
  rw [walk_append, walk_append]
  cases h : Mapper.walk lu m pre [] with
  | error e => rfl
  | ok o =>
    simp only [Mapper.walk]
    rw [walkStep_dash_skip lu m name tgs anon val t0 ts hsplit hdash hexp hcase o]

/-- C4 witness: the amended dash rule applied to a concrete record with a
dash-annotated named record field under Flatten off and one plain sibling
field. -/
theorem dash_skip_wit :
    splitN2 (tagGet [("json", "-")] "json") = "-" :: [] ∧
    equalFold "-" "-" = true ∧
    isExported asciiLu "S" = .ok true ∧
    Mapper.ToMap asciiLu { Tag := "json", Omitempty := false, Flatten := false }
        (.vStruct (.mk "S" [("json", "-")] false
            (.vStruct [.mk "X" [("json", "x")] false (.vInt 1)]) ::
          [GoField.mk "A" [("json", "a")] false (.vInt 2)])) =
      Mapper.ToMap asciiLu { Tag := "json", Omitempty := false, Flatten := false }
        (.vStruct [GoField.mk "A" [("json", "a")] false (.vInt 2)]) :=
  ⟨by decide, by decide, rfl,
   dash_skip_resolved asciiLu { Tag := "json", Omitempty := false, Flatten := false }
     "S" [("json", "-")] false
     (.vStruct [.mk "X" [("json", "x")] false (.vInt 1)])
     [] [GoField.mk "A" [("json", "a")] false (.vInt 2)] "-" []
     (by decide) (by decide) rfl
     (Or.inr ⟨rfl, rfl, [("x", GoValue.vInt 1)], rfl⟩)⟩

/-- C5: the claim states every unexported-style field is silently absent and
conversion still returns a mapping.  That holds for fields that reach the
tag resolver, as the first conjunct shows, but an unexported field of record
kind is read through Interface before any visibility check and the read
panics, so conversion aborts instead of returning a mapping. -/
theorem unexported_struct_field_panics :
    Mapper.ToMap asciiLu { Tag := "json", Omitempty := false, Flatten := false }
        (.vStruct [.mk "name" [("json", "nm")] false (.vString "x"),
                   .mk "Name" [("json", "exp")] false (.vString "y")]) =
      .ok [("exp", .vString "y")] ∧
    Mapper.ToMap asciiLu { Tag := "json", Omitempty := false, Flatten := false }
        (.vStruct [.mk "hidden" [] false
          (.vStruct [.mk "X" [] false (.vInt 1)])]) =
      .error "reflect.Value.Interface: cannot return value obtained from unexported field or method" :=
  ⟨rfl, rfl⟩

/-- C6: for an exported field whose first annotation token is not the dash,
the tag resolver skips exactly when empty-omission is requested, the entire
remainder after the first comma equals the omitempty marker, and the
emptiness classifier reports the value empty; in particular a remainder with
a trailing extra token never triggers omission, and with omitEmpty off no
field is skipped for emptiness. -/
theorem omitempty_second_token_iff (lu : Nat → Bool) (fld : GoField)
    (tag : String) (oe : Bool) (t0 : String) (ts : List String)
    (hexp : isExported lu fld.name = .ok true)
    (hsplit : splitN2 (tagGet fld.tags tag) = t0 :: ts)
    (hdash : equalFold t0 "-" = false) :
    tagName lu fld tag oe = .ok none ↔
      oe = true ∧ ts.head? = some fOmitEmpty ∧ isEmpty fld.value = true := by
  cases oe with
  | false => simp [tagName, hexp, hsplit, hdash]
  | true =>
    cases ts with
    | nil => simp [tagName, hexp, hsplit, hdash]
    | cons t1 rest =>
      by_cases h1 : t1 = fOmitEmpty
      · by_cases h2 : isEmpty fld.value = true
        · simp [tagName, hexp, hsplit, hdash, h1, h2]
        · simp [tagName, hexp, hsplit, hdash, h1, h2]
      · simp [tagName, hexp, hsplit, hdash, h1]

/-- C6 witness: the omission criterion applied to a field annotated
name,omitempty,extra with an empty value under omitEmpty on: the remainder
after the first comma is omitempty,extra, not the marker, so both sides of
the equivalence are false and the field is kept. -/
theorem omitempty_second_token_wit :
    isExported asciiLu extraTokenField.name = .ok true ∧
    splitN2 (tagGet extraTokenField.tags "json") = "name" :: ["omitempty,extra"] ∧
    equalFold "name" "-" = false ∧
    (tagName asciiLu extraTokenField "json" true = .ok none ↔
      true = true ∧ (["omitempty,extra"] : List String).head? = some fOmitEmpty ∧
        isEmpty extraTokenField.value = true) :=
  ⟨rfl, by decide, by decide,
   omitempty_second_token_iff asciiLu extraTokenField "json" true "name"
     ["omitempty,extra"] rfl (by decide) (by decide)⟩

/-- C7: the emptiness classifier matches the reference definition case by
case: numerically zero integers, unsigned integers and floats (the two zero
bit patterns are exactly the floats comparing equal to zero), false
booleans, complex values whose both components are zero, zero-length
strings, arrays, slices and maps, nil pointers and interfaces, the time type
exactly when its zero predicate holds, false for every other record value
and for the invalid value, and it is a total function, so it never
faults. -/
theorem isEmpty_reference :
    (∀ n : Int, isEmpty (.vInt n) = decide (n = 0)) ∧
    (∀ n : Nat, isEmpty (.vUint n) = decide (n = 0)) ∧
    (∀ bits, isEmpty (.vFloat bits) =
      (bits == 0 || bits == 0x8000000000000000)) ∧
    (∀ b, isEmpty (.vBool b) = !b) ∧
    (∀ re im, isEmpty (.vComplex re im) =
      (isEmpty (.vFloat re) && isEmpty (.vFloat im))) ∧
    (∀ s : String, isEmpty (.vString s) = decide (s = "")) ∧
    (∀ l, isEmpty (.vArray l) = decide (l.length = 0)) ∧
    (∀ l, isEmpty (.vSlice l) = decide (l.length = 0)) ∧
    (∀ l, isEmpty (.vMap l) = decide (l.length = 0)) ∧
    (∀ p, isEmpty (.vPtr p) = p.isNone) ∧
    (∀ p, isEmpty (.vIface p) = p.isNone) ∧
    (∀ z, isEmpty (.vTime z) = z) ∧
    (∀ fs, isEmpty (.vStruct fs) = false) ∧
    (∀ l, isEmpty (.vMapSA l) = decide (l.length = 0)) ∧
    isEmpty .vNull = false := by
  refine ⟨?_, ?_, ?_, ?_, ?_, ?_, ?_, ?_, ?_, ?_, ?_, ?_, ?_, ?_, rfl⟩ <;>
    intros <;> simp only [isEmpty] <;>
    first
    | rfl
    | (rename_i str
       cases h : decide (str = "")
       · cases h2 : str.isEmpty
         · rfl
         · exact absurd ((String.isEmpty_iff _).mp h2) (of_decide_eq_false h)
       · simp_all [String.isEmpty_iff])

/-- C8: for every mapping, every key order and every initial buffer, the
projection succeeds with a result of length exactly the key order length
whose position i holds the map read of key i, the nil any value when the key
is absent. -/
theorem mapValues_projection (out : List GoValue) (m : List (String × GoValue))
    (order : List String) :
    MapValues out m order = .ok (order.map (mapGet m)) ∧
      (order.map (mapGet m)).length = order.length := by
  refine ⟨?_, by simp⟩
  simp only [MapValues]
  split_ifs with h
  · rw [setLoop_spec m order (resize out order.length) 0 (by rw [resize_length]; omega)]
    simp
  · rw [setLoop_spec m order out 0 (by omega)]
    simp

/-- C9 counterexample: a field name that begins with the valid three-byte
UTF-8 encoding of the replacement character decodes successfully (size 3,
not a failure signal), yet the visibility check still aborts, so the abort
condition is not exactly the undecodable names. -/
theorem replacement_char_cex :
    firstRuneDecodable [0xEF, 0xBF, 0xBD] = true ∧
    isExportedBytes asciiLu [0xEF, 0xBF, 0xBD] =
      .error "isExported: unsupported field" :=
  ⟨by decide, rfl⟩

/-- C9 amended: the visibility check aborts exactly when the decoded first
rune is the replacement character: when the first character cannot be
decoded (empty name or malformed encoding) or when the name genuinely
begins with the replacement character itself; every other name returns
normally. -/
theorem isExported_abort_iff (lu : Nat → Bool) (s : List Nat) :
    isExportedBytes lu s = .error "isExported: unsupported field" ↔
      firstRuneDecodable s = false ∨ s.take 3 = [0xEF, 0xBF, 0xBD] := by
  rw [← decode_fffd_iff s]
  simp only [isExportedBytes]
  split_ifs with h <;> simp [h]

/-- C10: converting a pointer to a record yields the same mapping as
converting the record directly, for every configuration: the entry point
dereferences one pointer level before walking the fields. -/
theorem toMap_deref (lu : Nat → Bool) (m : Mapper) (fields : List GoField) :
    Mapper.ToMap lu m (.vPtr (some (.vStruct fields))) =
      Mapper.ToMap lu m (.vStruct fields) := rfl

end Tagops
